import Mathlib

/-!
Verification of the AiRanDesk session-transport stack against its
specification.  The development shallowly embeds the C++ code of the
repository: byte buffers are `List Nat` whose elements are byte values
(`< 256`; every value the embedded code writes is reduced `% 256` exactly
where the C++ performs a `quint8` / `std::byte` cast), fallible paths
return `Option`, and the stateful pieces (fragment reassembly, the
WebSocket reconnect machine, the controller's video-error counters, the
encoder's keyframe flag) are explicit state-passing step functions.
-/

namespace AiRan

/-- Big-endian encoding of `v` into `w` bytes, as written by the two
header loops of `FilePacketUtil::sendFileStream`
(`fragment[16+i] = (v >> ((7-i)*8)) & 0xFF`) and by the
`QDataStream::BigEndian` 32-bit header-size prefix. -/
def beBytes (w v : Nat) : List Nat :=
  (List.range w).map (fun i => v / 256 ^ (w - 1 - i) % 256)

/-- Big-endian decoding `acc = (acc << 8) | byte`, as in
`FilePacketUtil::processReceivedFragment` and in the
`QDataStream::BigEndian` read of `processFileDataPacket`. -/
def beDecode (bs : List Nat) : Nat :=
  bs.foldl (fun acc b => acc * 256 + b) 0

theorem beBytes_length (w v : Nat) : (beBytes w v).length = w := by
  simp [beBytes]

theorem beBytes_succ (w v : Nat) :
    beBytes (w + 1) v = (v / 256 ^ w % 256) :: beBytes w (v % 256 ^ w) := by
  simp only [beBytes, List.range_succ_eq_map, List.map_cons, List.map_map]
  congr 1
  apply List.map_congr_left
  intro i hi
  have hi' : i < w := List.mem_range.mp hi
  simp only [Function.comp_apply]
  have h1 : w + 1 - 1 - (i + 1) = w - 1 - i := by omega
  have h2 : (256 : Nat) ^ (w - 1 - i) * 256 ^ (i + 1) = 256 ^ w := by
    rw [← pow_add]; congr 1; omega
  rw [h1]
  calc v / 256 ^ (w - 1 - i) % 256
      = v / 256 ^ (w - 1 - i) % 256 ^ (i + 1) % 256 :=
        (Nat.mod_mod_of_dvd _ (dvd_pow_self 256 (Nat.succ_ne_zero i))).symm
    _ = v % (256 ^ (w - 1 - i) * 256 ^ (i + 1)) / 256 ^ (w - 1 - i) % 256 := by
        rw [Nat.mod_mul_right_div_self]
    _ = v % 256 ^ w / 256 ^ (w - 1 - i) % 256 := by rw [h2]

theorem beDecode_shift : ∀ (bs : List Nat) (a : Nat),
    bs.foldl (fun acc b => acc * 256 + b) a =
      a * 256 ^ bs.length + bs.foldl (fun acc b => acc * 256 + b) 0
  | [], a => by simp
  | b :: bs, a => by
    simp only [List.foldl_cons, List.length_cons]
    rw [beDecode_shift bs (a * 256 + b), beDecode_shift bs (0 * 256 + b)]
    ring

theorem beDecode_cons (b : Nat) (bs : List Nat) :
    beDecode (b :: bs) = b * 256 ^ bs.length + beDecode bs := by
  simp only [beDecode, List.foldl_cons]
  rw [beDecode_shift bs (0 * 256 + b)]
  ring

theorem beDecode_beBytes (w v : Nat) (h : v < 256 ^ w) :
    beDecode (beBytes w v) = v := by
  induction w generalizing v with
  | zero =>
    have : v = 0 := by simpa using h
    simp [this, beBytes, beDecode]
  | succ w ih =>
    rw [beBytes_succ, beDecode_cons, beBytes_length]
    rw [ih (v % 256 ^ w) (Nat.mod_lt _ (pow_pos (by norm_num) w))]
    have hdiv : v / 256 ^ w < 256 := by
      apply Nat.div_lt_of_lt_mul
      calc v < 256 ^ (w + 1) := h
        _ = 256 ^ w * 256 := by rw [pow_succ]
    rw [Nat.mod_eq_of_lt hdiv]
    have hd := Nat.div_add_mod v (256 ^ w)
    linarith

/-! Fragment-protocol constants from `file_packet_util.h`. -/

/-- `constexpr quint64 FRAGMENT_SIZE = 8 * 1024`. -/
def FRAGMENT_SIZE : Nat := 8 * 1024

/-- `constexpr quint64 HEADER_SIZE = 32` (16-byte message id, 8-byte total
count, 8-byte fragment index). -/
def HEADER_SIZE : Nat := 32

/-- `constexpr quint64 PAYLOAD_SIZE = FRAGMENT_SIZE - HEADER_SIZE`. -/
def PAYLOAD_SIZE : Nat := FRAGMENT_SIZE - HEADER_SIZE

/-- `constexpr quint64 MAX_REASONABLE_OFFSET = 100LL*1024*1024*1024`. -/
def MAX_REASONABLE_OFFSET : Nat := 100 * 1024 * 1024 * 1024

/-- One wire fragment as built inside the send loop of
`FilePacketUtil::sendFileStream`: the 8192-byte buffer is the 16-byte
message id, the total count and the index in big-endian, the payload,
and a zero tail (the `rtc::binary` is value-initialised to zero and the
code additionally `memset`s the tail). -/
def mkFragment (msgId : List Nat) (total idx : Nat) (payload : List Nat) : List Nat :=
  msgId ++ beBytes 8 total ++ beBytes 8 idx ++ payload ++
    List.replicate (PAYLOAD_SIZE - payload.length) 0

/-- The `while (fragmentIndex < totalFragments)` loop of
`FilePacketUtil::sendFileStream`.  Each round takes up to
`PAYLOAD_SIZE` bytes off the front of the logical buffer (header bytes
first, then file bytes — the code drains `dataBuffer` and then reads the
file, which concatenates) and breaks when no data is left.  `fuel` is
`total - idx`, making the loop structural. -/
def sendLoop (msgId : List Nat) (total : Nat) : Nat → Nat → List Nat → List (List Nat)
  | 0, _, _ => []
  | fuel + 1, idx, buf =>
    if idx < total then
      let payload := buf.take PAYLOAD_SIZE
      if payload.isEmpty then []
      else mkFragment msgId total idx payload ::
        sendLoop msgId total fuel (idx + 1) (buf.drop PAYLOAD_SIZE)
    else []

/-- The logical buffer `len32_be(header) || header || file`, as assembled
by `sendFileStream` (`headerSizeBytes`, `headerBytes`, then streamed file
reads).  The length prefix is written through a `quint32` cast. -/
def logicalBuffer (headerBytes fileBytes : List Nat) : List Nat :=
  beBytes 4 (headerBytes.length % 2 ^ 32) ++ headerBytes ++ fileBytes

/-- `totalFragments = (totalDataSize + PAYLOAD_SIZE - 1) / PAYLOAD_SIZE`
with `totalDataSize = 4 + headerBytes.size() + file.size()`. -/
def totalFragmentsOf (headerBytes fileBytes : List Nat) : Nat :=
  (4 + headerBytes.length + fileBytes.length + (PAYLOAD_SIZE - 1)) / PAYLOAD_SIZE

/-- `FilePacketUtil::sendFileStream`, modelled as the list of 8192-byte
fragments pushed to the `file` data channel (channel assumed open and
every `send` assumed to succeed; the 1 ms pacing sleep has no effect on
the data sent). -/
def sendFileStream (msgId headerBytes fileBytes : List Nat) : List (List Nat) :=
  let total := totalFragmentsOf headerBytes fileBytes
  sendLoop msgId total total 0 (logicalBuffer headerBytes fileBytes)

/-! Fragment reassembly (`FilePacketUtil::processReceivedFragment` and
`FilePacketUtil::reassembleFragment`).  The per-message scratch file is
modelled as its byte content; the `std::map<QString, ReassemblyBuffer>`
as an association list keyed by the pair (channel name, 16 message-id
bytes) — the C++ key string `channelName + "_" + uuid.toString()` is an
injective image of that pair, and since `'i'`/`'l'` never occur in a
QUuid string, `messageId.contains("file")` holds exactly when the
channel name contains `"file"`. -/

/-- One entry of `m_reassemblyBuffers` (the `timestamp` field is only
written at creation and never read by the embedded operations, so it is
omitted). -/
structure ReassemblyBuffer where
  totalFragments : Nat
  received : List Bool
  tempFile : List Nat
deriving DecidableEq

abbrev MsgKey := String × List Nat

abbrev ReassemblyState := List (MsgKey × ReassemblyBuffer)

def lookupBuf (st : ReassemblyState) (k : MsgKey) : Option ReassemblyBuffer :=
  (st.find? (fun e => e.1 = k)).map (fun e => e.2)

def eraseBuf (st : ReassemblyState) (k : MsgKey) : ReassemblyState :=
  st.filter (fun e => ¬ e.1 = k)

/-- Updating the entry for `k` (a `std::map` holds one value per key;
only `lookupBuf` / `eraseBuf` observations of the map are used by the
embedded operations, so the entry order is irrelevant). -/
def setBuf (st : ReassemblyState) (k : MsgKey) (b : ReassemblyBuffer) : ReassemblyState :=
  (k, b) :: eraseBuf st k

/-- `QFile::seek(off)` followed by `write(bs)`: bytes past the current
end are zero (sparse gap), the written range overwrites. -/
def writeAt (file : List Nat) (off : Nat) (bs : List Nat) : List Nat :=
  let f := if file.length < off then file ++ List.replicate (off - file.length) 0 else file
  f.take off ++ bs ++ f.drop (off + bs.length)

def startsWith : List Char → List Char → Bool
  | [], _ => true
  | _ :: _, [] => false
  | p :: ps, c :: cs => p = c && startsWith ps cs

def containsRun (pat : List Char) : List Char → Bool
  | [] => startsWith pat []
  | c :: cs => startsWith pat (c :: cs) || containsRun pat cs

/-- `messageId.contains("file")` of `reassembleFragment`, reduced to the
channel-name component of the key (see the section comment). -/
def msgKeyHasFile (k : MsgKey) : Bool :=
  containsRun "file".data k.1.data

/-- `FilePacketUtil::reassembleFragment`.  Returns the new buffer map
and, when the message just completed on a key containing `"file"`, the
scratch-file content handed to `processFileDataPacket` (file I/O is
assumed to succeed; on completion the scratch file is deleted and the
entry erased, exactly as in the source). -/
def reassembleFragment (st : ReassemblyState) (key : MsgKey)
    (fragmentIndex totalFragments : Nat) (fragment : List Nat) :
    ReassemblyState × Option (List Nat) :=
  if totalFragments = 0 ∨ totalFragments ≤ fragmentIndex then (st, none)
  else
    let buf0 := (lookupBuf st key).getD ⟨0, [], []⟩
    let buf1 := if buf0.received.isEmpty then
        ⟨totalFragments, List.replicate totalFragments false, []⟩
      else buf0
    let off := fragmentIndex * PAYLOAD_SIZE
    if MAX_REASONABLE_OFFSET < off then (setBuf st key buf1, none)
    else
      let buf2 : ReassemblyBuffer :=
        ⟨buf1.totalFragments, buf1.received.set fragmentIndex true,
          writeAt buf1.tempFile off fragment⟩
      if (List.range totalFragments).all (fun i => buf2.received.getD i false) then
        (eraseBuf st key, if msgKeyHasFile key then some buf2.tempFile else none)
      else (setBuf st key buf2, none)

/-- `FilePacketUtil::processReceivedFragment`: header validation and
dispatch into `reassembleFragment`.  A `QUuid` built by `fromRfc4122` is
null exactly when all 16 id bytes are zero. -/
def processReceivedFragment (st : ReassemblyState) (data : List Nat)
    (channelName : String) : ReassemblyState × Option (List Nat) :=
  if data.length < HEADER_SIZE then (st, none)
  else
    let msgId := data.take 16
    if msgId.all (fun b => b = 0) then (st, none)
    else
      let totalFragments := beDecode ((data.drop 16).take 8)
      let fragmentIndex := beDecode ((data.drop 24).take 8)
      if totalFragments = 0 ∨ 1000000 < totalFragments then (st, none)
      else if totalFragments ≤ fragmentIndex then (st, none)
      else
        reassembleFragment st (channelName, msgId) fragmentIndex totalFragments
          (data.drop HEADER_SIZE)

/-- Feeding a sequence of received buffers into the reassembler,
collecting every scratch-file content that reached
`processFileDataPacket`. -/
def ingestAll (st : ReassemblyState) (frags : List (List Nat)) (channelName : String) :
    ReassemblyState × List (List Nat) :=
  frags.foldl (fun acc d =>
    let r := processReceivedFragment acc.1 d channelName
    (r.1, acc.2 ++ r.2.toList)) (st, [])

/-! File materialisation (`FilePacketUtil::processFileDataPacket` and
`FilePacketUtil::streamCopyFile`).  Parsing the header JSON is done by
the external Qt JSON library (`JsonUtil::safeParseObject` plus the three
`getString` reads), so it enters the model as a `parse` parameter from
header bytes to the three extracted fields. -/

/-- The fields `processFileDataPacket` reads from the parsed header. -/
structure FileHeaderInfo where
  msgType : String
  pathCtl : String
  pathCli : String
deriving DecidableEq

/-- `FilePacketUtil::streamCopyFile source sourceOffset targetPath dataSize`,
as the bytes it writes to the target: it copies in 64 KiB chunks until
`dataSize` bytes are copied or the source is exhausted, and fails
(removing the partial target) unless exactly `dataSize` bytes were
copied. -/
def streamCopyFile (source : List Nat) (sourceOffset dataSize : Nat) : Option (List Nat) :=
  let copied := (source.drop sourceOffset).take dataSize
  if copied.length = dataSize then some copied else none

/-- `FilePacketUtil::processFileDataPacket` over the scratch-file bytes:
read the 4-byte big-endian header length, parse the header JSON, and
stream-copy the remaining `tempFile.size() - (4 + headerSize)` bytes to
the destination path (`path_ctl` for `file_download`, `path_cli` for
`file_upload`).  Returns the destination path and the bytes written
there. -/
def processFileDataPacket (parse : List Nat → Option FileHeaderInfo)
    (temp : List Nat) : Option (String × List Nat) :=
  if temp.length < 4 then none
  else
    let headerSize := beDecode (temp.take 4)
    if temp.length - 4 < headerSize then none
    else
      match parse ((temp.drop 4).take headerSize) with
      | none => none
      | some h =>
        let fileDataStart := 4 + headerSize
        let fileDataSize := temp.length - fileDataStart
        if h.msgType = "file_download" ∧ ¬ h.pathCtl = "" ∧ ¬ h.pathCli = "" then
          (streamCopyFile temp fileDataStart fileDataSize).map (fun bs => (h.pathCtl, bs))
        else if h.msgType = "file_upload" ∧ ¬ h.pathCtl = "" ∧ ¬ h.pathCli = "" then
          (streamCopyFile temp fileDataStart fileDataSize).map (fun bs => (h.pathCli, bs))
        else none

/-! Signaling-client reconnect machine (`WsCli` in
`websocket/ws_cli.cpp`).  `MAX_RETRY_PER_PHASE` is declared in the
header `ws_cli.h`, which is not part of the sources; the machine is
therefore parameterised over it and the theorems instantiate it at the
specified value 10. -/

structure WsCliState where
  connected : Bool
  reconnectPhase : Nat
  reconnectCount : Nat
deriving DecidableEq

/-- The `switch (m_reconnect_phase)` of `WsCli::scheduleReconnect`; the
initialiser `int delay = 1000` covers phases outside 0–3. -/
def reconnectDelayMs : Nat → Nat
  | 0 => 1000
  | 1 => 10000
  | 2 => 30000
  | 3 => 60000
  | _ => 1000

/-- `WsCli::scheduleReconnect`: no timer when already connected,
otherwise the phase-dependent delay is armed. -/
def scheduleReconnect (s : WsCliState) : Option Nat :=
  if s.connected then none else some (reconnectDelayMs s.reconnectPhase)

/-- `WsCli::attemptReconnect`: early return when connected; the counter
is incremented; when `m_ws` is null the phase logic is skipped;
otherwise reaching `MAX_RETRY_PER_PHASE` advances phases 0–2 and resets
the counter, and in phase 3 only resets the counter. -/
def attemptReconnect (maxRetryPerPhase : Nat) (wsPresent : Bool) (s : WsCliState) :
    WsCliState :=
  if s.connected then s
  else
    let s1 : WsCliState := ⟨s.connected, s.reconnectPhase, s.reconnectCount + 1⟩
    if ¬ wsPresent then s1
    else if maxRetryPerPhase ≤ s1.reconnectCount ∧ s1.reconnectPhase < 3 then
      ⟨s1.connected, s1.reconnectPhase + 1, 0⟩
    else if s1.reconnectPhase = 3 then
      if maxRetryPerPhase ≤ s1.reconnectCount then ⟨s1.connected, 3, 0⟩ else s1
    else s1

/-- `WsCli::onWsConnected`: mark connected and reset the reconnect
state. -/
def onWsConnected (_s : WsCliState) : WsCliState := ⟨true, 0, 0⟩

/-! Adaptive encode resolution (`WebRtcCli::calculateOptimalResolution`).
The C++ compares `double` aspect ratios and truncates `double` products;
the embedding performs the comparison by cross-multiplication and the
scaling by `Nat` floor division, which agree for screen-sized inputs.
The control-side maxima are C++ `int`s with `-1` as the "absent"
sentinel. -/

/-- `x & ~15` on a non-negative `int`. -/
def align16 (x : Nat) : Nat := x / 16 * 16

def calculateOptimalResolution (screenW screenH : Nat) (controlMaxW controlMaxH : Int) :
    Nat × Nat :=
  if controlMaxW = -1 ∨ controlMaxH = -1 then
    (align16 screenW, align16 screenH)
  else if (screenW : Int) ≤ controlMaxW ∧ (screenH : Int) ≤ controlMaxH then
    (align16 screenW, align16 screenH)
  else
    let cw := controlMaxW.toNat
    let ch := controlMaxH.toNat
    if ch * screenW > cw * screenH then
      (align16 cw, align16 (cw * screenH / screenW))
    else
      (align16 (ch * screenW / screenH), align16 ch)

/-! Controller-side video error recovery (`WebRtcCtl::processVideoFrame`,
empty-frame branch, and `WebRtcCtl::requestKeyFrame`). -/

structure CtlVideoState where
  consecutiveEmptyFrames : Nat
  totalFramesReceived : Nat
deriving DecidableEq

/-- Observable effect of one call: the number of `request_keyframe` JSON
messages sent on the `input` channel and the started duration of the
single-shot retry timer, if any. -/
structure KeyframeRequestEffect where
  requestsSent : Nat
  timerStartMs : Option Nat
deriving DecidableEq

/-- `WebRtcCtl::requestKeyFrame`: no-op if the input channel is not
open; otherwise send one `request_keyframe` message and start the
single-shot timer at 2000 ms. -/
def requestKeyFrame (inputOpen : Bool) : KeyframeRequestEffect :=
  if inputOpen then ⟨1, some 2000⟩ else ⟨0, none⟩

/-- The `data.empty()` branch of `WebRtcCtl::processVideoFrame`:
increment the counters, and at 5 consecutive empty frames call
`requestKeyFrame` and reset the consecutive counter to 0. -/
def processVideoFrameEmpty (inputOpen : Bool) (s : CtlVideoState) :
    CtlVideoState × KeyframeRequestEffect :=
  let c := s.consecutiveEmptyFrames + 1
  let t := s.totalFramesReceived + 1
  if 5 ≤ c then (⟨0, t⟩, requestKeyFrame inputOpen)
  else (⟨c, t⟩, ⟨0, none⟩)

/-- A run of `n` consecutive empty received video frames, returning the
final state and the total number of `request_keyframe` messages sent. -/
def runEmptyFrames (inputOpen : Bool) (s : CtlVideoState) : Nat → CtlVideoState × Nat
  | 0 => (s, 0)
  | n + 1 =>
    let r := processVideoFrameEmpty inputOpen s
    let rest := runEmptyFrames inputOpen r.1 n
    (rest.1, r.2.requestsSent + rest.2)

/-! Input-channel dispatch on the controlled side
(`WebRtcCli::parseInputMsg`, `handleMouseEvent`, `handleKeyboardEvent`)
and the encoder keyframe logic (`H264Encoder`).  The JSON layer is the
external Qt library; a message enters the model as the values its
`JsonUtil::getString` / `getInt` / `getDouble` reads produce, with the
source's defaults standing for missing fields.  The `double` mouse
coordinates are embedded as exact rationals. -/

structure InputMsgFields where
  msgType : String
  sender : String
  receiver : String
  receiverPwd : String
  button : Int := -1
  x : Rat := -1
  y : Rat := -1
  mouseData : Int := -1
  dwFlags : String := ""
  keyCode : Int := -1
deriving DecidableEq

structure LocalConfig where
  localId : String
  localPwdMd5 : String
deriving DecidableEq

/-- A call into the OS input injector (`InputUtil::execMouseEvent` /
`InputUtil::execKeyboardEvent`). -/
inductive InjectedEvent where
  | mouse (button : Int) (x y : Rat) (mouseData : Int) (dwFlags : String)
  | keyboard (keyCode : Int) (dwFlags : String)
deriving DecidableEq

/-- `WebRtcCli::handleMouseEvent`: reject negative (missing)
coordinates, otherwise inject. -/
def handleMouseEvent (m : InputMsgFields) : Option InjectedEvent :=
  if m.x < 0 ∨ m.y < 0 then none
  else some (.mouse m.button m.x m.y m.mouseData m.dwFlags)

/-- `WebRtcCli::handleKeyboardEvent`: reject a missing key code or empty
flags, otherwise inject. -/
def handleKeyboardEvent (m : InputMsgFields) : Option InjectedEvent :=
  if m.keyCode = -1 ∨ m.dwFlags = "" then none
  else some (.keyboard m.keyCode m.dwFlags)

/-- `WebRtcCli::parseInputMsg`: the envelope checks (`msgType` present,
`sender` equals the session's remote peer id, `receiver` equals the
local id and `receiver_pwd` equals the local password MD5), then
dispatch on `msgType` — only `"mouse"` and `"keyboard"` reach an
injector; every other type falls into the warn-and-drop branch. -/
def parseInputMsg (remoteId : String) (cfg : LocalConfig) (m : InputMsgFields) :
    Option InjectedEvent :=
  if m.msgType = "" then none
  else if m.sender = "" ∨ ¬ m.sender = remoteId then none
  else if m.receiver = "" ∨ ¬ m.receiver = cfg.localId ∨ ¬ m.receiverPwd = cfg.localPwdMd5 then
    none
  else if m.msgType = "mouse" then handleMouseEvent m
  else if m.msgType = "keyboard" then handleKeyboardEvent m
  else none

/-- The encoder state relevant to keyframe forcing
(`m_frameCount`, `m_forceKeyFrame`, `m_fps`). -/
structure EncoderState where
  frameCount : Nat
  forceKey : Bool
  fps : Nat
deriving DecidableEq

/-- `H264Encoder::forceKeyFrame`: set the force flag. -/
def forceKeyFrame (s : EncoderState) : EncoderState := ⟨s.frameCount, true, s.fps⟩

/-- `H264Encoder::encodeFrame` keyframe decision:
`needKeyFrame = (m_frameCount == 0 || m_forceKeyFrame || m_frameCount % (m_fps*2) == 0)`;
the flag is cleared when a keyframe is produced and the frame count
always advances.  Returns whether the submitted picture was marked
I/IDR. -/
def encodeFrameStep (s : EncoderState) : Bool × EncoderState :=
  let need := s.frameCount = 0 ∨ s.forceKey ∨ s.frameCount % (s.fps * 2) = 0
  (decide need, ⟨s.frameCount + 1, if need then false else s.forceKey, s.fps⟩)

/-! Track and data-channel creation on the controlled side
(`WebRtcCli::createTracksAndChannels`). -/

/-- Which of the session's tracks and data channels are non-null after
`createTracksAndChannels`. -/
structure SessionEndpoints where
  videoTrack : Bool
  audioTrack : Bool
  inputChannel : Bool
  fileChannel : Bool
  fileTextChannel : Bool
deriving DecidableEq

/-- `WebRtcCli::createTracksAndChannels`: the video track, audio track
and `input` channel are created only under `!m_isOnlyFile`; the `file`
and `file_text` channels are created unconditionally. -/
def createTracksAndChannels (isOnlyFile : Bool) : SessionEndpoints :=
  ⟨!isOnlyFile, !isOnlyFile, !isOnlyFile, true, true⟩

def numTracks (e : SessionEndpoints) : Nat :=
  (if e.videoTrack then 1 else 0) + (if e.audioTrack then 1 else 0)

def numDataChannels (e : SessionEndpoints) : Nat :=
  (if e.inputChannel then 1 else 0) + (if e.fileChannel then 1 else 0) +
    (if e.fileTextChannel then 1 else 0)

/-! Basic facts about the reassembly-state operations and `writeAt`. -/

theorem lookupBuf_setBuf (st : ReassemblyState) (k : MsgKey) (b : ReassemblyBuffer) :
    lookupBuf (setBuf st k b) k = some b := by
  simp [lookupBuf, setBuf, List.find?]

theorem lookupBuf_eraseBuf (st : ReassemblyState) (k : MsgKey) :
    lookupBuf (eraseBuf st k) k = none := by
  induction st with
  | nil => rfl
  | cons e st ih =>
    by_cases he : e.1 = k
    · simpa [eraseBuf, lookupBuf, List.filter, he] using ih
    · simpa [eraseBuf, lookupBuf, List.filter, List.find?, he] using ih

theorem list_set_self {α : Type} (l : List α) (i : Nat) (a : α) (h : l[i]? = some a) :
    l.set i a = l := by
  induction l generalizing i with
  | nil => simp at h
  | cons x l ih =>
    cases i with
    | zero => simp at h; simp [List.set, h]
    | succ i => simp only [List.set]; rw [ih i (by simpa using h)]

theorem writeAt_nil_zero (bs : List Nat) : writeAt [] 0 bs = bs := by
  simp [writeAt]

theorem align16_dvd (x : Nat) : 16 ∣ align16 x :=
  ⟨x / 16, by unfold align16; ring⟩

theorem align16_le (x : Nat) : align16 x ≤ x := Nat.div_mul_le_self x 16

theorem writeAt_self (f : List Nat) (o : Nat) (bs : List Nat)
    (hlen : o + bs.length ≤ f.length)
    (hbs : (f.drop o).take bs.length = bs) : writeAt f o bs = f := by
  have hno : ¬ f.length < o := by omega
  simp only [writeAt, if_neg hno, List.append_assoc]
  conv_rhs => rw [← List.take_append_drop o f]
  congr 1
  conv_rhs => rw [← List.take_append_drop bs.length (f.drop o)]
  rw [hbs]
  congr 1
  rw [List.drop_drop]

/-! Claims C4–C9. -/

/-- Claim C4: the signaling client's reconnect machine increments the
counter on every attempt; reaching `MAX_RETRY_PER_PHASE` advances the
phase and resets the counter in phases 0–2, and in phase 3 resets the
counter without changing the phase; the phase never exceeds 3 and never
decreases; a successful connection resets phase and counter to 0; and
the scheduled delay is 1 s / 10 s / 30 s / 60 s in phases 0 / 1 / 2 / 3. -/
theorem c4_reconnect_state_machine (maxRetryPerPhase : Nat) (s : WsCliState)
    (hconn : s.connected = false) :
    (s.reconnectCount + 1 < maxRetryPerPhase →
      attemptReconnect maxRetryPerPhase true s =
        ⟨false, s.reconnectPhase, s.reconnectCount + 1⟩) ∧
    (s.reconnectPhase < 3 → maxRetryPerPhase ≤ s.reconnectCount + 1 →
      attemptReconnect maxRetryPerPhase true s = ⟨false, s.reconnectPhase + 1, 0⟩) ∧
    (s.reconnectPhase = 3 → maxRetryPerPhase ≤ s.reconnectCount + 1 →
      attemptReconnect maxRetryPerPhase true s = ⟨false, 3, 0⟩) ∧
    (s.reconnectPhase ≤ 3 → (attemptReconnect maxRetryPerPhase true s).reconnectPhase ≤ 3) ∧
    (s.reconnectPhase ≤ (attemptReconnect maxRetryPerPhase true s).reconnectPhase) ∧
    (onWsConnected s = ⟨true, 0, 0⟩) ∧
    (scheduleReconnect s = some (reconnectDelayMs s.reconnectPhase)) ∧
    reconnectDelayMs 0 = 1000 ∧ reconnectDelayMs 1 = 10000 ∧
    reconnectDelayMs 2 = 30000 ∧ reconnectDelayMs 3 = 60000 := by
  obtain ⟨c, p, n⟩ := s
  simp only [WsCliState.mk.injEq] at *
  subst hconn
  refine ⟨?_, ?_, ?_, ?_, ?_, rfl, rfl, rfl, rfl, rfl, rfl⟩ <;>
    simp only [attemptReconnect, scheduleReconnect, onWsConnected, Bool.false_eq_true,
      if_false, not_true, ite_false, ite_true] <;>
    intros <;> split_ifs <;> simp_all <;> omega

/-- Claim C5 counterexample: with the controller area absent (`-1`) and a
local screen of 1920×1080, `calculateOptimalResolution` does not return
the local screen resolution — the 16-alignment is applied in every
branch, giving 1920×1072. -/
theorem c5_alignment_applies_when_absent :
    calculateOptimalResolution 1920 1080 (-1) (-1) = (1920, 1072) ∧
    ¬ calculateOptimalResolution 1920 1080 (-1) (-1) = (1920, 1080) := by
  decide

/-- Claim C5 (amended): the callee uses the local screen resolution when
the controller area is absent or the screen fits, otherwise scales to
the controller area preserving the local aspect ratio, and in every
branch both dimensions are rounded down to a multiple of 16; the scaled
result always fits the controller area; for local screen 2560×1440 and
controller area 1920×1040 the result is 1840×1040. -/
theorem c5_resolution_policy (sw sh : Nat) (cw ch : Int)
    (hsw : 0 < sw) (hsh : 0 < sh) :
    (cw = -1 ∨ ch = -1 →
      calculateOptimalResolution sw sh cw ch = (align16 sw, align16 sh)) ∧
    ((sw : Int) ≤ cw → (sh : Int) ≤ ch →
      calculateOptimalResolution sw sh cw ch = (align16 sw, align16 sh)) ∧
    (0 < cw → 0 < ch → ¬ ((sw : Int) ≤ cw ∧ (sh : Int) ≤ ch) →
      16 ∣ (calculateOptimalResolution sw sh cw ch).1 ∧
      16 ∣ (calculateOptimalResolution sw sh cw ch).2 ∧
      ((calculateOptimalResolution sw sh cw ch).1 : Int) ≤ cw ∧
      ((calculateOptimalResolution sw sh cw ch).2 : Int) ≤ ch ∧
      calculateOptimalResolution sw sh cw ch =
        (if ch.toNat * sw > cw.toNat * sh
         then (align16 cw.toNat, align16 (cw.toNat * sh / sw))
         else (align16 (ch.toNat * sw / sh), align16 ch.toNat))) ∧
    calculateOptimalResolution 2560 1440 1920 1040 = (1840, 1040) := by
  refine ⟨?_, ?_, ?_, by decide⟩
  · intro h
    simp [calculateOptimalResolution, h]
  · intro h1 h2
    have hcw : ¬ cw = -1 := by omega
    have hch : ¬ ch = -1 := by omega
    simp [calculateOptimalResolution, hcw, hch, h1, h2]
  · intro hcw hch hfit
    have hnabs : ¬ (cw = -1 ∨ ch = -1) := by omega
    have key : calculateOptimalResolution sw sh cw ch =
        (if ch.toNat * sw > cw.toNat * sh
         then (align16 cw.toNat, align16 (cw.toNat * sh / sw))
         else (align16 (ch.toNat * sw / sh), align16 ch.toNat)) := by
      unfold calculateOptimalResolution
      simp only [if_neg hnabs, if_neg hfit]
    rw [key]
    by_cases hasp : ch.toNat * sw > cw.toNat * sh
    · rw [if_pos hasp]
      refine ⟨align16_dvd _, align16_dvd _, ?_, ?_, rfl⟩
      · show ((align16 cw.toNat : Nat) : Int) ≤ cw
        have h1 := align16_le cw.toNat
        omega
      · show ((align16 (cw.toNat * sh / sw) : Nat) : Int) ≤ ch
        have h1 := align16_le (cw.toNat * sh / sw)
        have h2 : cw.toNat * sh / sw ≤ ch.toNat := by
          have hle : cw.toNat * sh ≤ ch.toNat * sw := by omega
          calc cw.toNat * sh / sw ≤ ch.toNat * sw / sw :=
                Nat.div_le_div_right hle
            _ = ch.toNat := Nat.mul_div_cancel _ hsw
        omega
    · rw [if_neg hasp]
      refine ⟨align16_dvd _, align16_dvd _, ?_, ?_, rfl⟩
      · show ((align16 (ch.toNat * sw / sh) : Nat) : Int) ≤ cw
        have h1 := align16_le (ch.toNat * sw / sh)
        have h2 : ch.toNat * sw / sh ≤ cw.toNat := by
          have hle : ch.toNat * sw ≤ cw.toNat * sh := by omega
          calc ch.toNat * sw / sh ≤ cw.toNat * sh / sh :=
                Nat.div_le_div_right hle
            _ = cw.toNat := Nat.mul_div_cancel _ hsh
        omega
      · show ((align16 ch.toNat : Nat) : Int) ≤ ch
        have h1 := align16_le ch.toNat
        omega

/-- The consecutive-empty counter and request count over a run of empty
frames: starting below the threshold, `k` empties produce `(c + k) / 5`
requests and leave the counter at `(c + k) % 5`. -/
theorem runEmptyFrames_spec (k : Nat) : ∀ (c t : Nat), c < 5 →
    (runEmptyFrames true ⟨c, t⟩ k).2 = (c + k) / 5 ∧
    (runEmptyFrames true ⟨c, t⟩ k).1.consecutiveEmptyFrames = (c + k) % 5 := by
  induction k with
  | zero =>
    intro c t hc
    constructor
    · simp [runEmptyFrames]; omega
    · simp [runEmptyFrames]; omega
  | succ k ih =>
    intro c t hc
    by_cases h5 : 5 ≤ c + 1
    · have hc4 : c = 4 := by omega
      subst hc4
      have hstep : processVideoFrameEmpty true ⟨4, t⟩ = (⟨0, t + 1⟩, ⟨1, some 2000⟩) := by
        norm_num [processVideoFrameEmpty, requestKeyFrame]
      simp only [runEmptyFrames, hstep]
      obtain ⟨h1, h2⟩ := ih 0 (t + 1) (by norm_num)
      constructor
      · simp only [h1]; omega
      · simp only [h2]; omega
    · have hstep : processVideoFrameEmpty true ⟨c, t⟩ = (⟨c + 1, t + 1⟩, ⟨0, none⟩) := by
        simp [processVideoFrameEmpty, h5]
      simp only [runEmptyFrames, hstep]
      obtain ⟨h1, h2⟩ := ih (c + 1) (t + 1) (by omega)
      constructor
      · simp only [h1]; omega
      · simp only [h2]; omega

/-- Claim C6: on a run of consecutive empty received video frames with
the `input` channel open, the 5th empty frame makes
`processVideoFrame` send exactly one `request_keyframe` message and arm
the single-shot 2000 ms retry timer, resetting the consecutive-empty
counter to 0; below the threshold nothing is sent; a run of `k` empties
from a clean state sends `k / 5` requests — in particular 6 consecutive
empty frames send exactly one. -/
theorem c6_empty_frame_keyframe_request (inputOpen : Bool) (h : inputOpen = true) :
    (∀ t : Nat, processVideoFrameEmpty inputOpen ⟨4, t⟩ = (⟨0, t + 1⟩, ⟨1, some 2000⟩)) ∧
    (∀ c t : Nat, c + 1 < 5 →
      processVideoFrameEmpty inputOpen ⟨c, t⟩ = (⟨c + 1, t + 1⟩, ⟨0, none⟩)) ∧
    (∀ k t : Nat, (runEmptyFrames inputOpen ⟨0, t⟩ k).2 = k / 5) ∧
    (runEmptyFrames inputOpen ⟨0, 0⟩ 6).2 = 1 := by
  subst h
  refine ⟨?_, ?_, ?_, ?_⟩
  · intro t
    simp [processVideoFrameEmpty, requestKeyFrame]
  · intro c t hc
    simp [processVideoFrameEmpty, Nat.not_le.mpr hc]
  · intro k t
    simpa using (runEmptyFrames_spec k 0 t (by norm_num)).1
  · simpa using (runEmptyFrames_spec 6 0 0 (by norm_num)).1

/-- Claim C7 (code bug): an authenticated `request_keyframe` message on
the controlled side's input channel falls into `parseInputMsg`'s
unknown-type warn-and-drop branch — it never reaches
`H264Encoder::forceKeyFrame` (which would set the flag), so a subsequent
`encodeFrame` at an unremarkable frame count does not mark an I/IDR
picture. -/
theorem c7_request_keyframe_ignored :
    parseInputMsg "peerA" ⟨"peerB", "0123456789ABCDEF0123456789ABCDEF"⟩
      { msgType := "request_keyframe", sender := "peerA", receiver := "peerB",
        receiverPwd := "0123456789ABCDEF0123456789ABCDEF" } = none ∧
    (∀ s : EncoderState, (forceKeyFrame s).forceKey = true) ∧
    (encodeFrameStep ⟨7, false, 15⟩).1 = false := by
  refine ⟨by decide, fun s => rfl, by decide⟩

/-- Claim C8: the OS input injector is reached only if the message's
`sender` equals the session's remote peer id, its `receiver` equals the
local id, and its `receiver_pwd` equals the local password MD5; on any
mismatch the event is dropped with no injection. -/
theorem c8_input_auth_gate (remoteId : String) (cfg : LocalConfig) (m : InputMsgFields) :
    (∀ e : InjectedEvent, parseInputMsg remoteId cfg m = some e →
      m.sender = remoteId ∧ m.receiver = cfg.localId ∧ m.receiverPwd = cfg.localPwdMd5) ∧
    (¬ m.sender = remoteId ∨ ¬ m.receiver = cfg.localId ∨ ¬ m.receiverPwd = cfg.localPwdMd5 →
      parseInputMsg remoteId cfg m = none) := by
  constructor
  · intro e he
    unfold parseInputMsg at he
    split_ifs at he <;> simp_all
  · intro h
    unfold parseInputMsg
    split_ifs <;> simp_all

/-- Claim C9 counterexample: in file-only mode
`createTracksAndChannels` creates only two data channels — the `input`
channel is inside the `!m_isOnlyFile` block, so it stays null,
contradicting the claimed three non-null channels. -/
theorem c9_fileonly_missing_input_channel :
    numDataChannels (createTracksAndChannels true) = 2 ∧
    (createTracksAndChannels true).inputChannel = false := by
  decide

/-- Claim C9 (amended): in video+file mode exactly one video track, one
audio track and three data channels are non-null; in file-only mode
zero tracks and exactly the two channels `file` and `file_text` are
non-null (no `input` channel). -/
theorem c9_endpoints_by_mode :
    (numTracks (createTracksAndChannels false) = 2 ∧
     (createTracksAndChannels false).videoTrack = true ∧
     (createTracksAndChannels false).audioTrack = true ∧
     numDataChannels (createTracksAndChannels false) = 3) ∧
    (numTracks (createTracksAndChannels true) = 0 ∧
     numDataChannels (createTracksAndChannels true) = 2 ∧
     (createTracksAndChannels true).fileChannel = true ∧
     (createTracksAndChannels true).fileTextChannel = true ∧
     (createTracksAndChannels true).inputChannel = false) := by
  decide

/-! Witnesses for the hypothesis-bearing theorems above. -/

theorem c4_reconnect_state_machine_witness :
    attemptReconnect 10 true ⟨false, 2, 9⟩ = ⟨false, 3, 0⟩ :=
  (c4_reconnect_state_machine 10 ⟨false, 2, 9⟩ rfl).2.1 (by decide) (by decide)

theorem c5_resolution_policy_witness :
    calculateOptimalResolution 2560 1440 1920 1040 = (1840, 1040) :=
  (c5_resolution_policy 2560 1440 1920 1040 (by decide) (by decide)).2.2.2

theorem c6_empty_frame_keyframe_request_witness :
    (runEmptyFrames true ⟨0, 0⟩ 6).2 = 1 :=
  (c6_empty_frame_keyframe_request true rfl).2.2.2

theorem c8_input_auth_gate_witness :
    parseInputMsg "peerA" ⟨"peerB", "GOODHASH"⟩
      { msgType := "mouse", sender := "peerA", receiver := "peerB",
        receiverPwd := "BADHASH" } = none :=
  (c8_input_auth_gate "peerA" ⟨"peerB", "GOODHASH"⟩
    { msgType := "mouse", sender := "peerA", receiver := "peerB",
      receiverPwd := "BADHASH" }).2 (Or.inr (Or.inr (by decide)))

/-! Claims C1–C3 and C10: the fragment protocol. -/

theorem logicalBuffer_length (hB fB : List Nat) :
    (logicalBuffer hB fB).length = 4 + hB.length + fB.length := by
  simp [logicalBuffer, beBytes_length]
  omega

theorem mkFragment_length (msgId : List Nat) (total idx : Nat) (payload : List Nat)
    (hid : msgId.length = 16) (hp : payload.length ≤ PAYLOAD_SIZE) :
    (mkFragment msgId total idx payload).length = FRAGMENT_SIZE := by
  have h1 : PAYLOAD_SIZE = 8160 := rfl
  have h2 : FRAGMENT_SIZE = 8192 := rfl
  rw [h1] at hp
  simp [mkFragment, beBytes_length, hid, h1, h2]
  omega

theorem sendLoop_spec (msgId : List Nat) (L : List Nat) (total : Nat)
    (htot : total = (L.length + 8159) / 8160) :
    ∀ fuel idx, total - idx ≤ fuel →
      sendLoop msgId total fuel idx (L.drop (idx * PAYLOAD_SIZE)) =
        (List.range' idx (total - idx)).map
          (fun i => mkFragment msgId total i
            ((L.drop (i * PAYLOAD_SIZE)).take PAYLOAD_SIZE)) := by
  have hP : PAYLOAD_SIZE = 8160 := rfl
  intro fuel
  induction fuel with
  | zero =>
    intro idx h
    have h0 : total - idx = 0 := by omega
    rw [h0]
    simp [sendLoop]
  | succ fuel ih =>
    intro idx h
    by_cases hidx : idx < total
    · have hlt : idx * PAYLOAD_SIZE < L.length := by
        rw [hP]; subst htot; omega
      have hne : ¬ ((L.drop (idx * PAYLOAD_SIZE)).take PAYLOAD_SIZE) = [] := by
        apply List.ne_nil_of_length_pos
        rw [List.length_take, List.length_drop]
        exact lt_min_iff.mpr ⟨by rw [hP]; norm_num, by omega⟩
      have hdd : (L.drop (idx * PAYLOAD_SIZE)).drop PAYLOAD_SIZE =
          L.drop ((idx + 1) * PAYLOAD_SIZE) := by
        rw [List.drop_drop]
        have harith : idx * PAYLOAD_SIZE + PAYLOAD_SIZE = (idx + 1) * PAYLOAD_SIZE := by ring
        rw [harith]
      have hre : total - idx = (total - (idx + 1)) + 1 := by omega
      simp only [sendLoop, if_pos hidx, List.isEmpty_iff, if_neg hne]
      rw [hdd, ih (idx + 1) (by omega), hre, List.range'_succ]
      simp
    · have h0 : total - idx = 0 := by omega
      rw [h0]
      simp [sendLoop, if_neg hidx]

theorem sendFileStream_eq (msgId hB fB : List Nat) :
    sendFileStream msgId hB fB =
      (List.range (totalFragmentsOf hB fB)).map
        (fun i => mkFragment msgId (totalFragmentsOf hB fB) i
          (((logicalBuffer hB fB).drop (i * PAYLOAD_SIZE)).take PAYLOAD_SIZE)) := by
  have htot : totalFragmentsOf hB fB = ((logicalBuffer hB fB).length + 8159) / 8160 := by
    rw [logicalBuffer_length]
    rfl
  have h := sendLoop_spec msgId (logicalBuffer hB fB) (totalFragmentsOf hB fB) htot
    (totalFragmentsOf hB fB) 0 (by omega)
  simp only [Nat.zero_mul, List.drop_zero, Nat.sub_zero] at h
  rw [sendFileStream, h, List.range_eq_range']

/-- Claim C2: for any header bytes and file bytes, `sendFileStream`
sends exactly `⌈(4 + len(header) + len(file)) / 8160⌉` fragments, each
exactly 8192 bytes, laid out as the 16-byte message id, the total count
as a big-endian 64-bit integer, the index as a big-endian 64-bit
integer, then up to 8160 bytes of the logical buffer with the tail
zero-padded to the fixed size. -/
theorem c2_sendFileStream_fragments (msgId headerBytes fileBytes : List Nat)
    (hid : msgId.length = 16) :
    (sendFileStream msgId headerBytes fileBytes).length =
      (4 + headerBytes.length + fileBytes.length + 8159) / 8160 ∧
    (∀ fr ∈ sendFileStream msgId headerBytes fileBytes, fr.length = 8192) ∧
    sendFileStream msgId headerBytes fileBytes =
      (List.range ((4 + headerBytes.length + fileBytes.length + 8159) / 8160)).map
        (fun i =>
          msgId ++ beBytes 8 ((4 + headerBytes.length + fileBytes.length + 8159) / 8160) ++
            beBytes 8 i ++
            ((logicalBuffer headerBytes fileBytes).drop (i * 8160)).take 8160 ++
            List.replicate
              (8160 -
                (((logicalBuffer headerBytes fileBytes).drop (i * 8160)).take 8160).length)
              0) := by
  have htot : totalFragmentsOf headerBytes fileBytes =
      (4 + headerBytes.length + fileBytes.length + 8159) / 8160 := rfl
  refine ⟨?_, ?_, ?_⟩
  · rw [sendFileStream_eq, List.length_map, List.length_range, htot]
  · intro fr hfr
    rw [sendFileStream_eq] at hfr
    obtain ⟨i, _, rfl⟩ := List.mem_map.mp hfr
    have hp : (((logicalBuffer headerBytes fileBytes).drop (i * PAYLOAD_SIZE)).take
        PAYLOAD_SIZE).length ≤ PAYLOAD_SIZE := by
      rw [List.length_take]
      exact min_le_left _ _
    have h := mkFragment_length msgId (totalFragmentsOf headerBytes fileBytes) i _ hid hp
    simpa [FRAGMENT_SIZE] using h
  · rw [sendFileStream_eq, htot]
    rfl

theorem c2_sendFileStream_fragments_witness :
    (sendFileStream (1 :: List.replicate 15 0) [123, 125] [65]).length = 1 := by
  have h := (c2_sendFileStream_fragments (1 :: List.replicate 15 0) [123, 125] [65]
    (by decide)).1
  norm_num at h
  exact h

/-- Claim C3 counterexample: a 33-byte buffer (size ≠ 8192 but ≥ 32)
with a valid header is NOT dropped — `processReceivedFragment` only
rejects buffers smaller than 32 bytes, so this fragment creates a
reassembly entry, writes the scratch file and sets a presence bit. -/
theorem c3_size_check_counterexample :
    ((1 :: List.replicate 15 0) ++ beBytes 8 2 ++ beBytes 8 0 ++ [7]).length = 33 ∧
    (processReceivedFragment []
        ((1 :: List.replicate 15 0) ++ beBytes 8 2 ++ beBytes 8 0 ++ [7]) "file").1 =
      [(("file", 1 :: List.replicate 15 0), ⟨2, [true, false], [7]⟩)] := by
  decide

/-- Claim C3 (amended): the reassembler's ingest drops the buffer
without any state change whenever the buffer is smaller than the 32-byte
fragment header, the decoded total fragment count is 0 or greater than
10⁶, or the decoded fragment index is ≥ the total count (a buffer of
size ≥ 32 that is not 8192 bytes is still ingested). -/
theorem c3_fragment_validation (st : ReassemblyState) (data : List Nat) (ch : String) :
    (data.length < 32 → processReceivedFragment st data ch = (st, none)) ∧
    (beDecode ((data.drop 16).take 8) = 0 → processReceivedFragment st data ch = (st, none)) ∧
    (1000000 < beDecode ((data.drop 16).take 8) →
      processReceivedFragment st data ch = (st, none)) ∧
    (beDecode ((data.drop 16).take 8) ≤ beDecode ((data.drop 24).take 8) →
      processReceivedFragment st data ch = (st, none)) := by
  refine ⟨?_, ?_, ?_, ?_⟩ <;> intro h <;>
    simp only [processReceivedFragment, HEADER_SIZE] <;>
    split_ifs <;> first
      | rfl
      | (exfalso; omega)

theorem c3_fragment_validation_witness :
    processReceivedFragment [] [] "file" = ([], none) :=
  (c3_fragment_validation [] [] "file").1 (by decide)

/-- Claim C10 counterexample: completed-message processing is NOT
at-most-once per message id — a single-fragment message delivered twice
is processed twice, because the completing ingest erases the entry and
the duplicate then starts (and completes) a fresh reassembly. -/
theorem c10_duplicate_reprocessing_counterexample :
    (ingestAll []
        [(1 :: List.replicate 15 0) ++ beBytes 8 1 ++ beBytes 8 0 ++ [7],
         (1 :: List.replicate 15 0) ++ beBytes 8 1 ++ beBytes 8 0 ++ [7]] "file").2 =
      [[7], [7]] ∧
    ¬ (ingestAll []
        [(1 :: List.replicate 15 0) ++ beBytes 8 1 ++ beBytes 8 0 ++ [7],
         (1 :: List.replicate 15 0) ++ beBytes 8 1 ++ beBytes 8 0 ++ [7]] "file").2.length ≤ 1 := by
  decide

/-- Every call to `reassembleFragment` either reports no completion or
has erased the entry for its key. -/
theorem reassembleFragment_snd_none_or_erased (st : ReassemblyState) (key : MsgKey)
    (idx total : Nat) (frag : List Nat) :
    (reassembleFragment st key idx total frag).2 = none ∨
    (reassembleFragment st key idx total frag).1 = eraseBuf st key := by
  unfold reassembleFragment
  simp only []
  split_ifs <;> simp

/-- Claim C10 (amended): re-ingesting an already-recorded fragment of a
live, not-yet-complete message leaves the presence bitset and the
scratch-file contents unchanged and does not trigger completion; and a
completing ingest erases the reassembly entry, so a live entry is
processed at most once (though a duplicate delivered after completion
starts a fresh reassembly and can be processed again). -/
theorem c10_reassembly_idempotence :
    (∀ (st : ReassemblyState) (key : MsgKey) (idx total : Nat) (frag : List Nat)
        (buf : ReassemblyBuffer),
      lookupBuf st key = some buf →
      ¬ buf.received = [] →
      buf.received[idx]? = some true →
      idx * PAYLOAD_SIZE + frag.length ≤ buf.tempFile.length →
      (buf.tempFile.drop (idx * PAYLOAD_SIZE)).take frag.length = frag →
      idx * PAYLOAD_SIZE ≤ MAX_REASONABLE_OFFSET →
      ¬ total = 0 → idx < total →
      ((List.range total).all (fun i => buf.received.getD i false)) = false →
      (reassembleFragment st key idx total frag).2 = none ∧
        lookupBuf (reassembleFragment st key idx total frag).1 key = some buf) ∧
    (∀ (st : ReassemblyState) (key : MsgKey) (idx total : Nat) (frag : List Nat)
        (t : List Nat),
      (reassembleFragment st key idx total frag).2 = some t →
      lookupBuf (reassembleFragment st key idx total frag).1 key = none) := by
  constructor
  · intro st key idx total frag buf hlook hne hbit hlen hcontent hoff htot hidx hincomplete
    have hval : ¬ (total = 0 ∨ total ≤ idx) := by omega
    have hset : buf.received.set idx true = buf.received := list_set_self _ _ _ hbit
    have hw : writeAt buf.tempFile (idx * PAYLOAD_SIZE) frag = buf.tempFile :=
      writeAt_self _ _ _ hlen hcontent
    have hemp : buf.received.isEmpty = false := by
      cases hrec : buf.received with
      | nil => exact absurd hrec hne
      | cons a l => rfl
    have hoff' : ¬ MAX_REASONABLE_OFFSET < idx * PAYLOAD_SIZE := by omega
    have heq : reassembleFragment st key idx total frag =
        (setBuf st key buf, none) := by
      unfold reassembleFragment
      rw [if_neg hval]
      simp only [hlook, Option.getD_some, hemp, Bool.false_eq_true, if_false,
        if_neg hoff', hset, hw, hincomplete]
    rw [heq]
    exact ⟨rfl, lookupBuf_setBuf st key buf⟩
  · intro st key idx total frag t hsome
    rcases reassembleFragment_snd_none_or_erased st key idx total frag with h | h
    · rw [h] at hsome
      simp at hsome
    · rw [h]
      exact lookupBuf_eraseBuf st key

theorem c10_reassembly_idempotence_witness :
    (reassembleFragment
        (processReceivedFragment []
          ((1 :: List.replicate 15 0) ++ beBytes 8 2 ++ beBytes 8 0 ++ [7]) "file").1
        ("file", 1 :: List.replicate 15 0) 0 2 [7]).2 = none ∧
    lookupBuf
        (reassembleFragment
          (processReceivedFragment []
            ((1 :: List.replicate 15 0) ++ beBytes 8 2 ++ beBytes 8 0 ++ [7]) "file").1
          ("file", 1 :: List.replicate 15 0) 0 2 [7]).1
        ("file", 1 :: List.replicate 15 0) = some ⟨2, [true, false], [7]⟩ :=
  c10_reassembly_idempotence.1 _ ("file", 1 :: List.replicate 15 0) 0 2 [7]
    ⟨2, [true, false], [7]⟩ (by decide) (by decide) (by decide) (by decide)
    (by decide) (by decide) (by decide) (by decide) (by decide)

/-! Claim C1: the end-to-end file round trip. -/

theorem sendFileStream_single (msgId hB fB : List Nat)
    (hsize : 4 + hB.length + fB.length ≤ 8160) :
    sendFileStream msgId hB fB = [mkFragment msgId 1 0 (logicalBuffer hB fB)] := by
  have hL : (logicalBuffer hB fB).length = 4 + hB.length + fB.length :=
    logicalBuffer_length hB fB
  have htot : totalFragmentsOf hB fB = 1 := by
    have h : totalFragmentsOf hB fB =
        (4 + hB.length + fB.length + 8159) / 8160 := rfl
    rw [h]
    omega
  rw [sendFileStream_eq, htot]
  have htake : ((logicalBuffer hB fB).drop (0 * PAYLOAD_SIZE)).take PAYLOAD_SIZE =
      logicalBuffer hB fB := by
    rw [Nat.zero_mul, List.drop_zero]
    apply List.take_of_length_le
    show (logicalBuffer hB fB).length ≤ 8160
    omega
  have hr1 : List.range 1 = [0] := rfl
  rw [hr1]
  simp only [List.map_cons, List.map_nil]
  rw [htake]

theorem ingest_single_fragment (msgId : List Nat) (L : List Nat)
    (hid : msgId.length = 16) (hnz : (msgId.all (fun b => b = 0)) = false)
    (hL : L.length ≤ 8160) :
    processReceivedFragment [] (mkFragment msgId 1 0 L) "file" =
      ([], some (L ++ List.replicate (8160 - L.length) 0)) := by
  have hP : PAYLOAD_SIZE = 8160 := rfl
  have hdlen : (mkFragment msgId 1 0 L).length = 8192 := by
    have := mkFragment_length msgId 1 0 L hid (by rw [hP]; exact hL)
    simpa [FRAGMENT_SIZE] using this
  have hpadlen : PAYLOAD_SIZE - L.length = 8160 - L.length := by rw [hP]
  have hsplit16 : mkFragment msgId 1 0 L =
      msgId ++ (beBytes 8 1 ++ (beBytes 8 0 ++ (L ++ List.replicate (8160 - L.length) 0))) := by
    simp [mkFragment, List.append_assoc, hpadlen]
  have htake16 : (mkFragment msgId 1 0 L).take 16 = msgId := by
    rw [hsplit16]; exact List.take_left' hid
  have hsplit24 : mkFragment msgId 1 0 L =
      (msgId ++ beBytes 8 1) ++ (beBytes 8 0 ++ (L ++ List.replicate (8160 - L.length) 0)) := by
    simp [mkFragment, List.append_assoc, hpadlen]
  have hsplit32 : mkFragment msgId 1 0 L =
      ((msgId ++ beBytes 8 1) ++ beBytes 8 0) ++ (L ++ List.replicate (8160 - L.length) 0) := by
    simp [mkFragment, List.append_assoc, hpadlen]
  have htotal : beDecode (((mkFragment msgId 1 0 L).drop 16).take 8) = 1 := by
    rw [hsplit16, List.drop_left' hid, List.take_left' (beBytes_length 8 1)]
    exact beDecode_beBytes 8 1 (by norm_num)
  have hidx : beDecode (((mkFragment msgId 1 0 L).drop 24).take 8) = 0 := by
    rw [hsplit24, List.drop_left' (by simp [hid, beBytes_length]),
      List.take_left' (beBytes_length 8 0)]
    exact beDecode_beBytes 8 0 (by norm_num)
  have hdrop32 : (mkFragment msgId 1 0 L).drop 32 =
      L ++ List.replicate (8160 - L.length) 0 := by
    rw [hsplit32]
    exact List.drop_left' (by simp [hid, beBytes_length])
  have hreas : reassembleFragment [] ("file", msgId) 0 1
      (L ++ List.replicate (8160 - L.length) 0) =
      ([], some (L ++ List.replicate (8160 - L.length) 0)) := by
    have hval : ¬ ((1 : Nat) = 0 ∨ (1 : Nat) ≤ 0) := by omega
    have hoff : ¬ MAX_REASONABLE_OFFSET < 0 * PAYLOAD_SIZE := by
      simp
    have hhf : msgKeyHasFile ("file", msgId) = true := by
      show containsRun "file".data "file".data = true
      decide
    have hall : ((List.range 1).all
        (fun i => ((List.replicate 1 false).set 0 true).getD i false)) = true := by
      decide
    unfold reassembleFragment
    rw [if_neg hval]
    simp only [lookupBuf, List.find?_nil, Option.map_none', Option.getD_none,
      List.isEmpty_nil, if_true, if_neg hoff, Nat.zero_mul, writeAt_nil_zero]
    rw [if_pos hall, if_pos hhf]
    rfl
  unfold processReceivedFragment
  rw [if_neg (by rw [hdlen]; decide)]
  simp only [htake16, hnz, Bool.false_eq_true, if_false]
  rw [show (16 : Nat) = (16 : Nat) from rfl] at htake16
  simp only [htotal, hidx]
  rw [if_neg (by decide : ¬ ((1 : Nat) = 0 ∨ 1000000 < (1 : Nat))),
    if_neg (by decide : ¬ (1 : Nat) ≤ 0)]
  show reassembleFragment [] ("file", (mkFragment msgId 1 0 L).take 16) 0 1
      ((mkFragment msgId 1 0 L).drop HEADER_SIZE) = _
  rw [htake16]
  have h32 : (mkFragment msgId 1 0 L).drop HEADER_SIZE =
      L ++ List.replicate (8160 - L.length) 0 := hdrop32
  rw [h32, hreas]

theorem processFileDataPacket_single (parse : List Nat → Option FileHeaderInfo)
    (hB fB : List Nat) (info : FileHeaderInfo)
    (hh : hB.length < 2 ^ 32) (hsize : 4 + hB.length + fB.length ≤ 8160)
    (hparse : parse hB = some info) (hmt : info.msgType = "file_download")
    (hctl : ¬ info.pathCtl = "") (hcli : ¬ info.pathCli = "") :
    processFileDataPacket parse
        (logicalBuffer hB fB ++ List.replicate (8160 - (4 + hB.length + fB.length)) 0) =
      some (info.pathCtl, fB ++ List.replicate (8160 - (4 + hB.length + fB.length)) 0) := by
  have hmod : hB.length % 2 ^ 32 = hB.length := Nat.mod_eq_of_lt hh
  have hLlen : (logicalBuffer hB fB).length = 4 + hB.length + fB.length :=
    logicalBuffer_length hB fB
  set pad := List.replicate (8160 - (4 + hB.length + fB.length)) 0 with hpad
  set temp := logicalBuffer hB fB ++ pad with htempdef
  have hpadlen : pad.length = 8160 - (4 + hB.length + fB.length) := by
    rw [hpad]; exact List.length_replicate _ _
  have htL : temp.length = 8160 := by
    rw [htempdef, List.length_append, hLlen, hpadlen]; omega
  have hsplit4 : temp = beBytes 4 (hB.length % 2 ^ 32) ++ (hB ++ (fB ++ pad)) := by
    simp [htempdef, logicalBuffer, List.append_assoc]
  have htake4 : temp.take 4 = beBytes 4 (hB.length % 2 ^ 32) := by
    rw [hsplit4]; exact List.take_left' (beBytes_length _ _)
  have hhdr : beDecode (temp.take 4) = hB.length := by
    rw [htake4, hmod]
    have h4 : (256 : Nat) ^ 4 = 2 ^ 32 := by norm_num
    exact beDecode_beBytes 4 hB.length (by rw [h4]; exact hh)
  have hdrop4 : temp.drop 4 = hB ++ (fB ++ pad) := by
    rw [hsplit4]; exact List.drop_left' (beBytes_length _ _)
  have hdrop4take : (temp.drop 4).take hB.length = hB := by
    rw [hdrop4]; exact List.take_left' rfl
  have hdropStart : temp.drop (4 + hB.length) = fB ++ pad := by
    have h2 : temp = (beBytes 4 (hB.length % 2 ^ 32) ++ hB) ++ (fB ++ pad) := by
      simp [htempdef, logicalBuffer, List.append_assoc]
    rw [h2]
    exact List.drop_left' (by simp [beBytes_length])
  have hfp : (fB ++ pad).length = temp.length - (4 + hB.length) := by
    rw [List.length_append, hpadlen, htL]; omega
  unfold processFileDataPacket
  rw [if_neg (by omega : ¬ temp.length < 4)]
  simp only [hhdr]
  rw [if_neg (by omega : ¬ temp.length - 4 < hB.length)]
  rw [hdrop4take, hparse]
  show (if info.msgType = "file_download" ∧ ¬ info.pathCtl = "" ∧ ¬ info.pathCli = "" then
      (streamCopyFile temp (4 + hB.length) (temp.length - (4 + hB.length))).map
        (fun bs => (info.pathCtl, bs))
    else if info.msgType = "file_upload" ∧ ¬ info.pathCtl = "" ∧ ¬ info.pathCli = "" then
      (streamCopyFile temp (4 + hB.length) (temp.length - (4 + hB.length))).map
        (fun bs => (info.pathCli, bs))
    else none) = _
  rw [if_pos ⟨hmt, hctl, hcli⟩]
  unfold streamCopyFile
  rw [hdropStart]
  have hcopy : (fB ++ pad).take (temp.length - (4 + hB.length)) = fB ++ pad :=
    List.take_of_length_le (le_of_eq hfp)
  rw [hcopy]
  rw [if_pos hfp]
  rfl

/-- Claim C1 (code bug): the file protocol is NOT bit-exact.  The
receiver reassembles whole 8160-byte fragment payloads — including the
zero padding of the last fragment — into the scratch file, and
`processFileDataPacket` copies `tempFile.size() - (4 + headerSize)`
bytes to the destination, so every transfer whose logical size is not a
multiple of 8160 materialises the original bytes followed by padding
zeros.  Concretely: a 1-byte file `[65]` sent with the 2-byte header
`[123, 125]` arrives as 8154 bytes (`[65]` followed by 8153 zeros). -/
theorem c1_file_roundtrip_bug :
    (ingestAll [] (sendFileStream (1 :: List.replicate 15 0) [123, 125] [65]) "file").2 =
      [logicalBuffer [123, 125] [65] ++ List.replicate 8153 0] ∧
    processFileDataPacket
        (fun bs => if bs = [123, 125] then
          some ⟨"file_download", "ctl.bin", "cli.bin"⟩ else none)
        (logicalBuffer [123, 125] [65] ++ List.replicate 8153 0) =
      some ("ctl.bin", [65] ++ List.replicate 8153 0) ∧
    ([65] ++ List.replicate 8153 0).length = 8154 ∧
    ¬ ([65] ++ List.replicate 8153 0) = [65] := by
  have hL7 : (logicalBuffer [123, 125] [65]).length = 7 := by
    rw [logicalBuffer_length]
    decide
  have hlen : ([65] ++ List.replicate 8153 0).length = 8154 := by
    rw [List.length_append, List.length_replicate]
    decide
  refine ⟨?_, ?_, hlen, ?_⟩
  · have hsend := sendFileStream_single (1 :: List.replicate 15 0) [123, 125] [65]
      (by norm_num)
    have hing := ingest_single_fragment (1 :: List.replicate 15 0)
      (logicalBuffer [123, 125] [65]) (by decide) (by decide) (by omega)
    rw [hsend]
    unfold ingestAll
    rw [List.foldl_cons, List.foldl_nil]
    rw [hing, hL7]
    rfl
  · have h := processFileDataPacket_single
      (fun bs => if bs = [123, 125] then
        some ⟨"file_download", "ctl.bin", "cli.bin"⟩ else none)
      [123, 125] [65] ⟨"file_download", "ctl.bin", "cli.bin"⟩
      (by norm_num) (by norm_num) (by decide) rfl (by decide) (by decide)
    norm_num at h
    exact h
  · intro heq
    have h2 := congrArg List.length heq
    rw [hlen] at h2
    simp only [List.length_singleton] at h2
    omega

end AiRan
